import Mathlib

/-!
Verification of the repair-loop controller of the AI code debugger
(`src/core/debugger.py`, `src/core/utils.py`).

The Python code is shallowly embedded: the filesystem is an association
list from filename to content (Python `dict` insertion-order semantics),
the executor, the language model, the web search and the page fetcher are
external collaborators and are modelled as per-iteration oracles, and
Python exceptions are modelled with `Except`.
-/

namespace AIDebugger

/-- Python's `\s` character class, restricted to ASCII, as used by
`re` in `_extract_code_from_llm_response` and by `str.strip()`. -/
def isSpaceChar (c : Char) : Bool :=
  c == ' ' || c == '\t' || c == '\n' || c == '\r' || c == '\x0b' || c == '\x0c'

/-- Python `str.strip()`: drop whitespace from both ends. -/
def pyStrip (s : String) : String :=
  String.mk (((s.data.dropWhile isSpaceChar).reverse.dropWhile isSpaceChar).reverse)

/-- Substring test on character lists (Python's `needle in hay`). -/
def containsSub (needle : List Char) : List Char → Bool
  | [] => needle.isPrefixOf ([] : List Char)
  | c :: t => needle.isPrefixOf (c :: t) || containsSub needle t

/-- Marker used by the debugger to recognise a failing execution
(`"Traceback" in error_message`, debugger.py lines 135, 195, 255). -/
def tracebackMarker : List Char := ("Traceback").data

/-- Whether an executor output reports a failure. -/
def hasTraceback (s : String) : Bool := containsSub tracebackMarker s.data

/-- The literal `python`-fence opener of the response grammar
(regex fragment immediately after the filename line). -/
def fenceOpen : List Char := ("```python\n").data

/-- The literal fence closer of the response grammar. -/
def fenceClose : List Char := ("\n```").data

/-- Split a character list at the earliest occurrence of `needle`:
returns the text before the occurrence and the text after it.
This implements the lazy group `(.*?)` followed by a literal. -/
def splitAtSub (needle : List Char) : List Char → Option (List Char × List Char)
  | [] => if needle.isPrefixOf ([] : List Char) then some ([], []) else none
  | c :: t =>
    if needle.isPrefixOf (c :: t) then some ([], (c :: t).drop needle.length)
    else
      match splitAtSub needle t with
      | some (b, a) => some (c :: b, a)
      | none => none

/-- Try to match the block regex `#\s(\S+)\n`, then the python fence, then
a lazily matched body closed by the fence, at the head of the input
(regex of `_extract_code_from_llm_response`, debugger.py line 171, with
`re.DOTALL`).  On success returns the filename capture, the raw code
capture and the rest of the input after the match. -/
def matchAt (cs : List Char) : Option (String × String × List Char) :=
  match cs with
  | '#' :: c2 :: rest =>
    if isSpaceChar c2 then
      match rest.span (fun c => !(isSpaceChar c)) with
      | (fn, rest2) =>
        match fn, rest2 with
        | _ :: _, '\n' :: rest3 =>
          if fenceOpen.isPrefixOf rest3 then
            match splitAtSub fenceClose (rest3.drop fenceOpen.length) with
            | some (code, rest4) => some (String.mk fn, String.mk code, rest4)
            | none => none
          else none
        | _, _ => none
    else none
  | _ => none

/-- Left-to-right non-overlapping scan of `re.findall`: try a match at
every position, emit it and resume after the consumed text, otherwise
advance one character.  Structural on an explicit fuel; each recursive
call either drops one character or drops at least one character through
a successful match, so fuel equal to the input length is always enough. -/
def findBlocksAux : Nat → List Char → List (String × String)
  | 0, _ => []
  | fuel + 1, cs =>
    match cs with
    | [] => []
    | _ :: t =>
      match matchAt cs with
      | some (fn, code, rest) => (fn, code) :: findBlocksAux fuel rest
      | none => findBlocksAux fuel t

/-- All raw `(filename, code)` matches of the response grammar, in order
of appearance. -/
def findBlocks (cs : List Char) : List (String × String) := findBlocksAux cs.length cs

/-- Python dictionary as an insertion-ordered association list. -/
abbrev Dict := List (String × String)

/-- Python `d[k] = v`: overwrite in place when the key is present,
append otherwise. -/
def dictInsert (d : Dict) (k v : String) : Dict :=
  if d.any (fun p => decide (p.1 = k)) then
    d.map (fun p => if p.1 = k then (k, v) else p)
  else d ++ [(k, v)]

/-- Python `d.get(k)` / `k in d`. -/
def dictLookup : Dict → String → Option String
  | [], _ => none
  | (k, v) :: t, f => if k = f then some v else dictLookup t f

/-- The Response Parser `_extract_code_from_llm_response`
(debugger.py lines 161-173): find all blocks, strip each code body, and
build a Python dict by insertion (duplicate filenames overwrite). -/
def extractCode (llmResponse : String) : Dict :=
  (findBlocks llmResponse.data).foldl (fun d p => dictInsert d p.1 (pyStrip p.2)) []

/-- Modelled from the spec: the content of the last grammatically valid
block for a given filename, in order of appearance, used to state the
`last match wins` resolution rule. -/
def lastAssoc : List (String × String) → String → Option String
  | [], _ => none
  | (k, v) :: t, f =>
    match lastAssoc t f with
    | some r => some r
    | none => if k = f then some v else none

/-- The on-disk project directory: an association list from filename to
content (single-writer, per the concurrency model). -/
abbrev Fs := List (String × String)

/-- `open(path, "w").write(code)`: overwrite or create. -/
def fsWrite (fs : Fs) (name content : String) : Fs := dictInsert fs name content

/-- `_update_code_files` (debugger.py lines 175-184): write every entry
of the Code Change Set in order. -/
def updateCodeFiles (fs : Fs) (changes : List (String × String)) : Fs :=
  changes.foldl (fun f p => fsWrite f p.1 p.2) fs

/-- The pre-change read loop of `debug` (debugger.py lines 279-282):
`open(path, "r")` for every filename of the Code Change Set, in order.
A filename not on disk raises `FileNotFoundError`, which aborts the
whole iteration. -/
def readCodeBefore (fs : Fs) : List (String × String) → Except String (List (String × String))
  | [] => Except.ok []
  | (fn, _) :: rest =>
    match dictLookup fs fn with
    | some content => (readCodeBefore fs rest).map (fun tl => (fn, content) :: tl)
    | none => Except.error (("FileNotFoundError: ") ++ fn)

/-- The Change Summary construction of `debug` (debugger.py lines
288-295): one entry per changed file, in Code Change Set order, recorded
only when the file had a pre-change content and old and new content
differ after `strip()`.  The line diff itself (`get_diff`, an external
`difflib` computation) is passed in as an abstract function. -/
def changeSummary (diffOf : String → String → List String)
    (codeBefore : Dict) (changes : List (String × String)) : List (String × List String) :=
  changes.filterMap (fun p =>
    match dictLookup codeBefore p.1 with
    | some oldCode =>
      if pyStrip oldCode = pyStrip p.2 then none
      else some (p.1, diffOf oldCode p.2)
    | none => none)

/-- The Failure Signature Tracker update (debugger.py lines 258-262):
returns the new `(constant_error_count, last_error_signature)` pair. -/
def updateTracker (cur last : String) (cnt : Nat) : Nat × String :=
  if cur = last ∧ cur ≠ ("" : String) then (cnt + 1, last) else (0, cur)

/-- The current failure signature (debugger.py lines 252-256):
concatenation, in target-set order, of every executor output that
contains the traceback marker. -/
def currentSignature (files : List String) (out : String → String) : String :=
  files.foldl (fun acc f => let msg := out f; if hasTraceback msg then acc ++ msg else acc) ""

/-- `_check_for_errors` (debugger.py lines 186-197): some target file's
output contains the traceback marker. -/
def checkForErrors (files : List String) (out : String → String) : Bool :=
  files.any (fun f => hasTraceback (out f))

/-- Session configuration (constructor arguments of `CodeDebugger`). -/
structure Config where
  filesToDebug : List String
  maxAttempts : Nat
  enableInternetSearch : Bool
  numSearchUrls : Nat
  internetSearchThreshold : Nat

/-- Oracle for one iteration's external collaborators: the executor runs
(the signature run of lines 253-256 and the re-check of line 304), the
model's reply, and the search and fetch capabilities.  The prompt text
itself is not modelled: it only flows into the model call, whose reply is
already an oracle. -/
structure IterEnv where
  runOut : String → String
  searchQuery : String
  urls : List String
  fetchResult : String → Option String
  llmResponse : String
  recheckOut : String → String

/-- The mutable session state of `CodeDebugger.debug`. -/
structure St where
  attemptCount : Nat
  constantErrorCount : Nat
  lastErrorSignature : String
  fs : Fs
  errorExists : Bool

/-- The escalation condition of line 264, evaluated on the tracker value
after this iteration's update. -/
def escalates (cfg : Config) (env : IterEnv) (s : St) : Bool :=
  cfg.enableInternetSearch &&
    decide (cfg.internetSearchThreshold ≤
      (updateTracker (currentSignature cfg.filesToDebug env.runOut)
        s.lastErrorSignature s.constantErrorCount).1)

/-- `_fetch_internet_content` (debugger.py lines 212-239): empty when
search is disabled or no URL was found; otherwise concatenate the
successfully fetched pages among the first `num_search_urls` URLs,
skipping per-URL failures. -/
def fetchInternetContent (cfg : Config) (env : IterEnv) : String :=
  if !cfg.enableInternetSearch then ""
  else if env.urls.isEmpty then ""
  else
    (env.urls.take cfg.numSearchUrls).foldl (fun acc url =>
      match env.fetchResult url with
      | some content => acc ++ ("### CONTENT FROM: ") ++ url ++ ("\n") ++ content ++ ("\n\n")
      | none => acc) ""

/-- One iteration of the `while` loop of `debug` (debugger.py lines
249-309): increment the attempt counter, update the failure signature
tracker, take the escalation branch when its condition fires (which
resets the stuck counter unconditionally, line 270), parse the model
reply, read the pre-change contents (may raise), apply the Code Change
Set, and re-check for remaining failures. -/
def debugStep (cfg : Config) (env : IterEnv) (s : St) : Except String St :=
  let attempt := s.attemptCount + 1
  let tr := updateTracker (currentSignature cfg.filesToDebug env.runOut)
    s.lastErrorSignature s.constantErrorCount
  let esc := escalates cfg env s
  let cnt := if esc then 0 else tr.1
  let _info := if esc then fetchInternetContent cfg env else ""
  let codeChanges := extractCode env.llmResponse
  match readCodeBefore s.fs codeChanges with
  | Except.error e => Except.error e
  | Except.ok _codeBefore =>
    let fs2 := updateCodeFiles s.fs codeChanges
    let err := checkForErrors cfg.filesToDebug env.recheckOut
    Except.ok (St.mk attempt cnt tr.2 fs2 err)

/-- The `while error_exists and attempt_count < max_attempts` loop
(debugger.py line 248), structural on an explicit fuel.  Because every
iteration increments `attempt_count` by one, fuel `max_attempts` never
runs out before the loop guard turns false. -/
def debugRun (cfg : Config) (envs : Nat → IterEnv) : Nat → St → Except String St
  | 0, s => Except.ok s
  | fuel + 1, s =>
    if s.errorExists = true ∧ s.attemptCount < cfg.maxAttempts then
      match debugStep cfg (envs s.attemptCount) s with
      | Except.error e => Except.error e
      | Except.ok s2 => debugRun cfg envs fuel s2
    else Except.ok s

/-- The state at the top of `debug` (lines 42-44 and 247):
`attempt_count = 0`, `constant_error_count = 0`,
`last_error_signature = ""`, `error_exists = True`. -/
def initSt (fs : Fs) : St := St.mk 0 0 "" fs true

/-- A whole session: run the loop from the initial state. -/
def debugSession (cfg : Config) (envs : Nat → IterEnv) (fs : Fs) : Except String St :=
  debugRun cfg envs cfg.maxAttempts (initSt fs)

/-- The session reports success ("All errors fixed.", line 309) exactly
when the loop ended with `error_exists` false, i.e. the last re-check
found zero failures. -/
def reportsSucceeded (s : St) : Bool := !s.errorExists

/-- The session reports exhaustion ("Maximum attempt reached without
fixing all errors.", lines 311-312) exactly when
`attempt_count >= max_attempts` at loop exit. -/
def reportsExhausted (cfg : Config) (s : St) : Bool := decide (cfg.maxAttempts ≤ s.attemptCount)

/-- A constant failure text carrying the traceback marker. -/
def tbA : String := "Traceback: boom"

/-- A one-file project directory. -/
def fsA : Fs := [(("a.py"), ("code"))]

/-- Scenario A configuration: `max_attempts = 3`,
`internet_search_threshold = 2`, internet search enabled. -/
def cfgA : Config := Config.mk (["a.py"]) 3 true 5 2

/-- Scenario A oracle: `a.py` fails identically on every execution, the
model proposes no parseable change, the search returns no URL. -/
def envA : IterEnv :=
  IterEnv.mk (fun _ => tbA) ("q") [] (fun _ => none) ("") (fun _ => tbA)

/-- Scenario A oracle, one copy per iteration. -/
def envsA : Nat → IterEnv := fun _ => envA

/-- Scenario A state after attempt 1. -/
def stA1 : St := St.mk 1 0 tbA fsA true

/-- Scenario A state after attempt 2. -/
def stA2 : St := St.mk 2 1 tbA fsA true

/-- Scenario A final state after attempt 3. -/
def stA3 : St := St.mk 3 0 tbA fsA true

/-- Configuration with `max_attempts = 1` and search disabled. -/
def cfg1 : Config := Config.mk (["a.py"]) 1 false 5 5

/-- Oracle where the initial run fails but the re-check after the apply
step is clean: the fix lands on the final allowed attempt. -/
def env1 : IterEnv :=
  IterEnv.mk (fun _ => tbA) ("q") [] (fun _ => none) ("") (fun _ => "")

/-- One copy of `env1` per iteration. -/
def envs1 : Nat → IterEnv := fun _ => env1

/-- Final state of the `cfg1`/`env1` session: one attempt taken, no
failure left. -/
def st1Final : St := St.mk 1 0 tbA fsA false

/-- A model reply holding one grammatically valid block for `b.py`,
a file absent from the disk. -/
def resp4 : String := "# b.py\n```python\nprint(1)\n```"

/-- The Code Change Set parsed from `resp4`. -/
def chg4 : List (String × String) := [(("b.py"), ("print(1)"))]

/-- Configuration for the net-new-file iteration. -/
def cfg4 : Config := Config.mk (["a.py"]) 1 false 5 5

/-- Oracle whose model reply is `resp4`. -/
def env4 : IterEnv :=
  IterEnv.mk (fun _ => tbA) ("q") [] (fun _ => none) resp4 (fun _ => tbA)

/-- The exception raised by the pre-change read of `b.py`. -/
def err4 : String := "FileNotFoundError: b.py"

/-- C1: the terminal outcomes are not mutually exclusive in the code:
in a session whose final allowed attempt's re-check finds zero failures,
the loop exits with `error_exists` false (success is reported, line 309)
while `attempt_count >= max_attempts` also holds, so the exhaustion
message of lines 311-312 is reported as well — the code prints
"Maximum attempt reached without fixing all errors" in a run where all
errors were fixed, contradicting the message's own text. -/
theorem c1_success_and_exhaustion_both_reported :
    debugSession cfg1 envs1 fsA = Except.ok st1Final ∧
    reportsSucceeded st1Final = true ∧ reportsExhausted cfg1 st1Final = true :=
  ⟨rfl, rfl, rfl⟩

/-- C2 counterexample: in Scenario A (identical failure every run,
`max_attempts = 3`, `internet_search_threshold = 2`), the escalation
branch is NOT taken on attempt 2: after attempt 1 the stuck counter is
0, and during attempt 2 it only reaches 1, below the threshold 2. -/
theorem c2_no_escalation_at_attempt_two :
    debugStep cfgA envA (initSt fsA) = Except.ok stA1 ∧
    escalates cfgA envA stA1 = false :=
  ⟨rfl, rfl⟩

/-- C2 (amended): in Scenario A the escalation branch is taken on
attempt 3, the first attempt at which `constant_error_count` (which
counts repetitions beyond the first sighting of a signature) reaches the
threshold 2, and the session ends exhausted after attempt 3 with
failures remaining. -/
theorem c2_escalation_at_attempt_three :
    debugStep cfgA envA stA1 = Except.ok stA2 ∧
    escalates cfgA envA stA2 = true ∧
    debugSession cfgA envsA fsA = Except.ok stA3 ∧
    reportsExhausted cfgA stA3 = true ∧ reportsSucceeded stA3 = false :=
  ⟨rfl, rfl, rfl, rfl, rfl⟩

/-- C3: the failure-signature update increments the stuck counter
exactly when the current signature equals the stored one and is
non-empty, otherwise resets the counter to 0 and stores the current
signature; in particular an empty current signature (all target files
succeed) always resets the counter. -/
theorem c3_signature_tracker_update (cur last : String) (cnt : Nat) :
    (cur = last ∧ cur ≠ ("" : String) → updateTracker cur last cnt = (cnt + 1, last)) ∧
    (¬(cur = last ∧ cur ≠ ("" : String)) → updateTracker cur last cnt = (0, cur)) ∧
    (cur = ("" : String) → (updateTracker cur last cnt).1 = 0) := by
  refine ⟨fun h => ?_, fun h => ?_, fun h => ?_⟩
  · rw [updateTracker, if_pos h]
  · rw [updateTracker, if_neg h]
  · subst h
    rw [updateTracker, if_neg (by simp)]

/-- C3 witness: concrete evaluations of the tracker update. -/
theorem c3_signature_tracker_update_witness :
    updateTracker ("E") ("E") 2 = (3, ("E")) ∧
    updateTracker ("") ("E") 7 = (0, ("")) ∧
    (updateTracker ("") ("") 9).1 = 0 :=
  ⟨(c3_signature_tracker_update ("E") ("E") 2).1 ⟨rfl, by decide⟩,
   (c3_signature_tracker_update ("") ("E") 7).2.1 (by decide),
   (c3_signature_tracker_update ("") ("") 9).2.2 rfl⟩

/-- C4: a Code Change Set naming a file not on disk is parsed and
`_update_code_files` alone would write it, but the pre-change read loop
of `debug` (lines 279-282) opens the file for reading first and raises
`FileNotFoundError`, so the whole iteration aborts instead of treating
the pre-change content as empty — the dead guard
`if filename in code_before_change` at line 290 shows the missing-file
case was meant to be tolerated. -/
theorem c4_net_new_file_crashes_apply :
    extractCode resp4 = chg4 ∧
    readCodeBefore fsA chg4 = Except.error err4 ∧
    debugStep cfg4 env4 (initSt fsA) = Except.error err4 ∧
    updateCodeFiles fsA chg4 = fsA ++ chg4 :=
  ⟨rfl, rfl, rfl, rfl⟩

/-- Unfolding equation of `dictLookup` on a cons cell. -/
theorem dictLookup_cons (k v f : String) (t : Dict) :
    dictLookup ((k, v) :: t) f = if k = f then some v else dictLookup t f := rfl

/-- Looking a key up after appending a single pair: the old entries win,
the new pair answers only when the key was absent. -/
theorem lookup_append_single (k v f : String) :
    ∀ d : Dict, dictLookup (d ++ [(k, v)]) f =
      match dictLookup d f with
      | some w => some w
      | none => if k = f then some v else none := by
  intro d
  induction d with
  | nil => rfl
  | cons a t ih =>
    obtain ⟨a1, a2⟩ := a
    rw [List.cons_append, dictLookup_cons, dictLookup_cons]
    by_cases h : a1 = f
    · rw [if_pos h, if_pos h]
    · rw [if_neg h, if_neg h, ih]

/-- A key absent from every entry looks up to `none`. -/
theorem lookup_none_of_any_false (k : String) :
    ∀ d : Dict, d.any (fun p => decide (p.1 = k)) = false → dictLookup d k = none := by
  intro d
  induction d with
  | nil => intro _; rfl
  | cons a t ih =>
    obtain ⟨a1, a2⟩ := a
    intro h
    rw [List.any_cons, Bool.or_eq_false_iff] at h
    have h1 : ¬ a1 = k := by
      intro hc
      rw [hc] at h
      simp at h
    rw [dictLookup_cons, if_neg h1]
    exact ih h.2

/-- Overwriting the entries carrying key `k` makes `k` look up to the
new value, provided some entry carried `k`. -/
theorem lookup_map_self_of_any (k v : String) :
    ∀ d : Dict, d.any (fun p => decide (p.1 = k)) = true →
      dictLookup (d.map (fun p => if p.1 = k then (k, v) else p)) k = some v := by
  intro d
  induction d with
  | nil => intro h; cases h
  | cons a t ih =>
    obtain ⟨a1, a2⟩ := a
    intro h
    simp only [List.map_cons]
    by_cases h1 : a1 = k
    · rw [if_pos h1, dictLookup_cons, if_pos rfl]
    · rw [if_neg h1, dictLookup_cons, if_neg h1]
      rw [List.any_cons] at h
      exact ih (by simpa [h1] using h)

/-- Overwriting the entries carrying key `k` leaves every other key's
lookup unchanged. -/
theorem lookup_map_upd_ne (k v f : String) (hkf : k ≠ f) :
    ∀ d : Dict, dictLookup (d.map (fun p => if p.1 = k then (k, v) else p)) f =
      dictLookup d f := by
  intro d
  induction d with
  | nil => rfl
  | cons a t ih =>
    obtain ⟨a1, a2⟩ := a
    simp only [List.map_cons]
    by_cases h1 : a1 = k
    · rw [if_pos h1, dictLookup_cons, dictLookup_cons, if_neg hkf,
        if_neg (show ¬ a1 = f from fun hc => hkf (h1 ▸ hc)), ih]
    · rw [if_neg h1, dictLookup_cons, dictLookup_cons]
      by_cases h2 : a1 = f
      · rw [if_pos h2, if_pos h2]
      · rw [if_neg h2, if_neg h2, ih]

/-- Python `d[k] = v` makes `k` look up to `v`. -/
theorem dictLookup_insert_self (k v : String) (d : Dict) :
    dictLookup (dictInsert d k v) k = some v := by
  rw [dictInsert]
  split
  · rename_i hany
    exact lookup_map_self_of_any k v d hany
  · rename_i hany
    have hfalse : d.any (fun p => decide (p.1 = k)) = false :=
      Bool.eq_false_iff.mpr hany
    rw [lookup_append_single, lookup_none_of_any_false k d hfalse]
    simp

/-- Python `d[k] = v` leaves every other key's lookup unchanged. -/
theorem dictLookup_insert_ne (k v f : String) (hkf : k ≠ f) (d : Dict) :
    dictLookup (dictInsert d k v) f = dictLookup d f := by
  rw [dictInsert]
  split
  · exact lookup_map_upd_ne k v f hkf d
  · rw [lookup_append_single]
    cases hl : dictLookup d f with
    | some w => rfl
    | none => simp [hkf]

/-- Folding Code Change Set entries into a dict realizes the
last-match-wins rule: a key's final value is the stripped code of its
last occurrence, and keys never written keep the accumulator's value. -/
theorem lookup_foldl_ins (f : String) :
    ∀ (ms : List (String × String)) (d : Dict),
      dictLookup (ms.foldl (fun d p => dictInsert d p.1 (pyStrip p.2)) d) f =
        match lastAssoc ms f with
        | some v => some (pyStrip v)
        | none => dictLookup d f := by
  intro ms
  induction ms with
  | nil => intro d; rfl
  | cons a t ih =>
    intro d
    obtain ⟨k, v⟩ := a
    rw [List.foldl_cons, ih]
    cases hl : lastAssoc t f with
    | some r => simp [lastAssoc, hl]
    | none =>
      simp only [lastAssoc, hl]
      by_cases hkf : k = f
      · subst hkf
        simp [dictLookup_insert_self]
      · simp [hkf, dictLookup_insert_ne k (pyStrip v) f hkf d]

/-- Python `d[k] = v` never yields the empty dict. -/
theorem dictInsert_ne_nil (d : Dict) (k v : String) : dictInsert d k v ≠ [] := by
  rw [dictInsert]
  split
  · intro hc
    rw [List.map_eq_nil_iff] at hc
    subst hc
    simp_all
  · simp

/-- Folding entries into a non-empty dict keeps it non-empty. -/
theorem foldl_ins_ne_nil :
    ∀ (ms : List (String × String)) (d : Dict), d ≠ [] →
      ms.foldl (fun d p => dictInsert d p.1 (pyStrip p.2)) d ≠ [] := by
  intro ms
  induction ms with
  | nil => intro d h; exact h
  | cons a t ih =>
    intro d _
    rw [List.foldl_cons]
    exact ih (dictInsert d a.1 (pyStrip a.2)) (dictInsert_ne_nil d a.1 (pyStrip a.2))

/-- C6: the Response Parser yields the empty mapping exactly when the
reply contains zero blocks matching the expected grammar (non-strict
matching), and parsing is a deterministic function of the reply, so
parsing the same reply twice yields equal mappings. -/
theorem c6_zero_blocks_empty_and_deterministic (s : String) :
    (findBlocks s.data = [] → extractCode s = []) ∧
    (extractCode s = [] → findBlocks s.data = []) ∧
    extractCode s = extractCode s := by
  refine ⟨fun h => ?_, fun h => ?_, rfl⟩
  · rw [extractCode, h]
    rfl
  · by_contra hne
    cases hm : findBlocks s.data with
    | nil => exact hne hm
    | cons m t =>
      rw [extractCode, hm, List.foldl_cons] at h
      exact foldl_ins_ne_nil t (dictInsert [] m.1 (pyStrip m.2))
        (dictInsert_ne_nil [] m.1 (pyStrip m.2)) h

/-- A model reply with no grammatically valid block. -/
def respNoBlocks : String := "nothing to extract in this reply"

/-- C6 witness: a concrete reply with zero matching blocks parses to the
empty mapping. -/
theorem c6_zero_blocks_witness :
    findBlocks respNoBlocks.data = [] ∧ extractCode respNoBlocks = [] :=
  ⟨by decide, (c6_zero_blocks_empty_and_deterministic respNoBlocks).1 (by decide)⟩

/-- C7: the mapping returned by the Response Parser sends every filename
to the (stripped) content of the last grammatically valid block for that
filename, in order of appearance — duplicate filenames are overwritten
by the dict construction. -/
theorem c7_last_match_wins (s f : String) :
    dictLookup (extractCode s) f =
      Option.map pyStrip (lastAssoc (findBlocks s.data) f) := by
  rw [extractCode, lookup_foldl_ins f (findBlocks s.data) []]
  cases hl : lastAssoc (findBlocks s.data) f with
  | some r => rfl
  | none => rfl

/-- In a list with pairwise distinct keys, a key determines its value. -/
theorem assoc_key_unique :
    ∀ (l : List (String × String)), (l.map Prod.fst).Nodup →
      ∀ {a b c : String}, (a, b) ∈ l → (a, c) ∈ l → b = c := by
  intro l
  induction l with
  | nil => intro _ a b c h1; cases h1
  | cons p t ih =>
    intro hnd a b c h1 h2
    rw [List.map_cons, List.nodup_cons] at hnd
    rcases List.mem_cons.mp h1 with he1 | ht1
    · rcases List.mem_cons.mp h2 with he2 | ht2
      · rw [← he1] at he2
        exact (Prod.mk.injEq _ _ _ _ ▸ he2 : _ ∧ _).2.symm
      · exfalso
        exact hnd.1 (List.mem_map.mpr ⟨(a, c), ht2, by rw [← he1]⟩)
    · rcases List.mem_cons.mp h2 with he2 | ht2
      · exfalso
        exact hnd.1 (List.mem_map.mpr ⟨(a, b), ht1, by rw [← he2]⟩)
      · exact ih hnd.2 ht1 ht2

/-- C8: the Change Applier records no diff entry for a file whose
pre-change content equals its proposed content after whitespace
trimming — "no-op" edits are excluded from the Change Summary. -/
theorem c8_noop_edit_not_reported (diffOf : String → String → List String)
    (cb chs : List (String × String)) (fn old new : String)
    (hmem : (fn, new) ∈ chs) (hnd : (chs.map Prod.fst).Nodup)
    (hold : dictLookup cb fn = some old) (heq : pyStrip old = pyStrip new) :
    ∀ d, (fn, d) ∉ changeSummary diffOf cb chs := by
  intro d hcontra
  rw [changeSummary, List.mem_filterMap] at hcontra
  obtain ⟨⟨k, nc⟩, hkmem, hg⟩ := hcontra
  simp only at hg
  split at hg
  · rename_i oc hlk
    by_cases hstrip : pyStrip oc = pyStrip nc
    · rw [if_pos hstrip] at hg
      cases hg
    · rw [if_neg hstrip] at hg
      injection hg with hg1
      have hk : k = fn := (Prod.ext_iff.mp hg1).1
      subst hk
      have hnc : nc = new := assoc_key_unique chs hnd hkmem hmem
      rw [hold] at hlk
      injection hlk with hoc
      exact hstrip (by rw [← hoc, hnc]; exact heq)
  · cases hg

/-- C8 witness: an edit whose content differs only by surrounding
whitespace produces no Change Summary entry. -/
theorem c8_noop_edit_witness :
    (("a.py"), ([] : List String)) ∉
      changeSummary (fun _ _ => []) ([(("a.py"), (" x "))]) ([(("a.py"), ("x"))]) :=
  c8_noop_edit_not_reported (fun _ _ => []) ([(("a.py"), (" x "))]) ([(("a.py"), ("x"))])
    ("a.py") (" x ") ("x") (by decide) (by decide) (by decide) (by decide) ([])

/-- C9: applying a Code Change Set writes exactly the filenames named in
the mapping — any file whose name heads no entry keeps its content. -/
theorem c9_apply_frame (chs : List (String × String)) (name : String) :
    ∀ fs : Fs, (∀ p ∈ chs, p.1 ≠ name) →
      dictLookup (updateCodeFiles fs chs) name = dictLookup fs name := by
  induction chs with
  | nil => intro fs _; rfl
  | cons p t ih =>
    intro fs h
    obtain ⟨k, v⟩ := p
    have hk : k ≠ name := h (k, v) (List.mem_cons_self _ _)
    have h2 : ∀ q ∈ t, q.1 ≠ name := fun q hq => h q (List.mem_cons_of_mem _ hq)
    calc dictLookup (updateCodeFiles fs ((k, v) :: t)) name
        = dictLookup (updateCodeFiles (fsWrite fs k v) t) name := rfl
      _ = dictLookup (fsWrite fs k v) name := ih (fsWrite fs k v) h2
      _ = dictLookup fs name := dictLookup_insert_ne k v name hk fs

/-- C9 witness: writing `b.py` leaves `a.py` untouched. -/
theorem c9_apply_frame_witness :
    dictLookup (updateCodeFiles ([(("a.py"), ("old"))]) ([(("b.py"), ("new"))])) ("a.py") =
      dictLookup ([(("a.py"), ("old"))]) ("a.py") :=
  c9_apply_frame ([(("b.py"), ("new"))]) ("a.py") ([(("a.py"), ("old"))]) (by decide)

/-- Shape of a successful iteration: the attempt counter grows by one,
the stuck counter is the tracker value unless the escalation branch
reset it, the stored signature is the tracker's, the filesystem gets the
Code Change Set applied, and `error_exists` is the re-check verdict. -/
theorem debugStep_ok_eq (cfg : Config) (env : IterEnv) (s s' : St)
    (h : debugStep cfg env s = Except.ok s') :
    s' = St.mk (s.attemptCount + 1)
      (if escalates cfg env s then 0
       else (updateTracker (currentSignature cfg.filesToDebug env.runOut)
         s.lastErrorSignature s.constantErrorCount).1)
      (updateTracker (currentSignature cfg.filesToDebug env.runOut)
         s.lastErrorSignature s.constantErrorCount).2
      (updateCodeFiles s.fs (extractCode env.llmResponse))
      (checkForErrors cfg.filesToDebug env.recheckOut) := by
  simp only [debugStep] at h
  split at h
  · cases h
  · injection h with h1
    exact h1.symm

/-- A successful iteration increments the attempt counter by one. -/
theorem debugStep_ok_attempt (cfg : Config) (env : IterEnv) (s s' : St)
    (h : debugStep cfg env s = Except.ok s') :
    s'.attemptCount = s.attemptCount + 1 := by
  rw [debugStep_ok_eq cfg env s s' h]

/-- Once the attempt budget is used up the loop guard is false and the
loop performs no further iteration. -/
theorem debugRun_stopped (cfg : Config) (envs : Nat → IterEnv) (fuel : Nat) (s : St)
    (h : cfg.maxAttempts ≤ s.attemptCount) :
    debugRun cfg envs fuel s = Except.ok s := by
  cases fuel with
  | zero => rfl
  | succ n =>
    simp only [debugRun]
    rw [if_neg]
    intro hc
    exact Nat.not_lt.mpr h hc.2

/-- The attempt counter grows by at most the fuel spent. -/
theorem debugRun_ok_attempt_le (cfg : Config) (envs : Nat → IterEnv) :
    ∀ (fuel : Nat) (s s' : St), debugRun cfg envs fuel s = Except.ok s' →
      s'.attemptCount ≤ s.attemptCount + fuel := by
  intro fuel
  induction fuel with
  | zero =>
    intro s s' h
    injection h with h1
    rw [← h1]
    exact Nat.le_refl _
  | succ n ih =>
    intro s s' h
    simp only [debugRun] at h
    split at h
    · split at h
      · cases h
      · rename_i s2 hstep
        have h1 := debugStep_ok_attempt cfg (envs s.attemptCount) s s2 hstep
        have h2 := ih s2 s' h
        omega
    · injection h with h1
      rw [← h1]
      exact Nat.le_add_right _ _

/-- Running with any amount of fuel no smaller than the remaining
attempt budget yields the same result: the explicit fuel of `debugRun`
is an artifact of the embedding, not a semantic bound beyond
`max_attempts` itself. -/
theorem debugRun_fuel_stable (cfg : Config) (envs : Nat → IterEnv) :
    ∀ (fuel fuel2 : Nat) (s : St), cfg.maxAttempts ≤ s.attemptCount + fuel →
      cfg.maxAttempts ≤ s.attemptCount + fuel2 →
      debugRun cfg envs fuel s = debugRun cfg envs fuel2 s := by
  intro fuel
  induction fuel with
  | zero =>
    intro fuel2 s h1 h2
    rw [debugRun_stopped cfg envs 0 s (by omega), debugRun_stopped cfg envs fuel2 s (by omega)]
  | succ n ih =>
    intro fuel2 s h1 h2
    cases fuel2 with
    | zero =>
      rw [debugRun_stopped cfg envs (n + 1) s (by omega),
        debugRun_stopped cfg envs 0 s (by omega)]
    | succ m =>
      simp only [debugRun]
      by_cases hg : s.errorExists = true ∧ s.attemptCount < cfg.maxAttempts
      · rw [if_pos hg, if_pos hg]
        cases hstep : debugStep cfg (envs s.attemptCount) s with
        | error e => simp only [hstep]
        | ok s2 =>
          simp only [hstep]
          have ha := debugStep_ok_attempt cfg (envs s.attemptCount) s s2 hstep
          exact ih m s2 (by omega) (by omega)
      · rw [if_neg hg, if_neg hg]

/-- C5: once the escalation branch runs, the stuck counter is 0 after
the iteration, for every search and fetch outcome (the oracle `env` is
arbitrary, so no URL found and every fetch failing are covered); hence
an immediately following iteration can only escalate again when the
configured threshold is at most 1, i.e. never twice in a row for the
streak that triggered the first escalation. -/
theorem c5_escalation_resets_counter (cfg : Config) (env env2 : IterEnv) (s s2 : St) :
    (escalates cfg env s = true →
      ∀ s', debugStep cfg env s = Except.ok s' → s'.constantErrorCount = 0) ∧
    (escalates cfg env s = true → debugStep cfg env s = Except.ok s2 →
      escalates cfg env2 s2 = true → cfg.internetSearchThreshold ≤ 1) := by
  have hreset : escalates cfg env s = true →
      ∀ s', debugStep cfg env s = Except.ok s' → s'.constantErrorCount = 0 := by
    intro hesc s' h
    rw [debugStep_ok_eq cfg env s s' h]
    simp [hesc]
  refine ⟨hreset, fun hesc h hesc2 => ?_⟩
  have h0 : s2.constantErrorCount = 0 := hreset hesc s2 h
  rw [escalates, Bool.and_eq_true] at hesc2
  have hle := of_decide_eq_true hesc2.2
  have hle1 : (updateTracker (currentSignature cfg.filesToDebug env2.runOut)
      s2.lastErrorSignature s2.constantErrorCount).1 ≤ s2.constantErrorCount + 1 := by
    rw [updateTracker]
    split
    · exact Nat.le_refl _
    · exact Nat.zero_le _
  omega

/-- Configuration with threshold 0, making escalation immediate. -/
def cfgW : Config := Config.mk (["a.py"]) 3 true 5 0

/-- Oracle where every run is clean, the search finds nothing and every
fetch fails. -/
def envW : IterEnv :=
  IterEnv.mk (fun _ => "") ("q") [] (fun _ => none) ("") (fun _ => "")

/-- State after one escalating iteration under `cfgW`/`envW`. -/
def stW2 : St := St.mk 1 0 "" [] false

/-- C5 witness: a concrete escalating iteration in which the search
returned no URL at all still ends with the stuck counter at 0. -/
theorem c5_escalation_resets_counter_witness :
    escalates cfgW envW (initSt []) = true ∧
    debugStep cfgW envW (initSt []) = Except.ok stW2 ∧
    stW2.constantErrorCount = 0 ∧ cfgW.internetSearchThreshold ≤ 1 :=
  ⟨rfl, rfl,
   (c5_escalation_resets_counter cfgW envW envW (initSt []) stW2).1 rfl stW2 rfl,
   (c5_escalation_resets_counter cfgW envW envW (initSt []) stW2).2 rfl rfl rfl⟩

/-- C10: the attempt counter starts at 0, every iteration increments it
by exactly one, a finished session never exceeds `max_attempts`, and no
iteration begins once the counter has reached `max_attempts`. -/
theorem c10_attempt_budget (cfg : Config) (envs : Nat → IterEnv) (fs : Fs) :
    (initSt fs).attemptCount = 0 ∧
    (∀ env s s', debugStep cfg env s = Except.ok s' →
      s'.attemptCount = s.attemptCount + 1) ∧
    (∀ s', debugSession cfg envs fs = Except.ok s' →
      s'.attemptCount ≤ cfg.maxAttempts) ∧
    (∀ fuel s, cfg.maxAttempts ≤ s.attemptCount →
      debugRun cfg envs fuel s = Except.ok s) := by
  refine ⟨rfl, fun env s s' h => debugStep_ok_attempt cfg env s s' h,
    fun s' h => ?_, fun fuel s h => debugRun_stopped cfg envs fuel s h⟩
  rw [debugSession] at h
  have := debugRun_ok_attempt_le cfg envs cfg.maxAttempts (initSt fs) s' h
  simpa [initSt] using this

/-- C10 witness: a concrete one-attempt session stays within its budget
of one, and the loop refuses to start again afterwards. -/
theorem c10_attempt_budget_witness :
    (initSt fsA).attemptCount = 0 ∧
    st1Final.attemptCount = (initSt fsA).attemptCount + 1 ∧
    st1Final.attemptCount ≤ cfg1.maxAttempts ∧
    debugRun cfg1 envs1 5 st1Final = Except.ok st1Final :=
  ⟨(c10_attempt_budget cfg1 envs1 fsA).1,
   (c10_attempt_budget cfg1 envs1 fsA).2.1 env1 (initSt fsA) st1Final rfl,
   (c10_attempt_budget cfg1 envs1 fsA).2.2.1 st1Final rfl,
   (c10_attempt_budget cfg1 envs1 fsA).2.2.2 5 st1Final (by decide)⟩

end AIDebugger
